import Mathlib

/-!
Shallow embedding of the Cloudflare Worker in src/index.ts: a generic
HTTP-to-SQL CRUD gateway over a D1 (SQLite) database.  Requests are modelled
as explicit records, the D1 binding as an oracle of three methods
(all, first, run) that either return a result or throw an error message,
and the worker fetch handler as a pure function from a request and an oracle
to an HTTP response together with the list of statements sent to the
database.
-/

namespace D1Worker

/-- Parsed JSON values, as produced by request.json().  JSON numbers are
modelled as integers, which covers every value the development exercises. -/
inductive Json where
  | null
  | bool (b : Bool)
  | num (n : Int)
  | str (s : String)
  | arr (xs : List Json)
  | obj (fields : List (String × Json))

/-- Truthiness of a JSON value under JavaScript boolean coercion; models the
negated test in the source line (!body). -/
def jsFalsy : Json → Bool
  | .null => true
  | .bool b => !b
  | .num n => n == 0
  | .str s => s == ""
  | .arr _ => false
  | .obj _ => false

/-- Model of the JavaScript builtin Object.keys applied to a parsed JSON
value: own enumerable keys of an object, decimal index strings for arrays
and strings, and the empty list for number and boolean primitives. -/
def jsObjectKeys : Json → List String
  | .obj fields => fields.map Prod.fst
  | .arr xs => (List.range xs.length).map (fun n => toString n)
  | .str s => (List.range s.length).map (fun n => toString n)
  | .null => []
  | .bool _ => []
  | .num _ => []

/-- Model of the JavaScript builtin Object.values, matching jsObjectKeys. -/
def jsObjectValues : Json → List Json
  | .obj fields => fields.map Prod.snd
  | .arr xs => xs
  | .str s => s.toList.map (fun c => Json.str (String.mk [c]))
  | .null => []
  | .bool _ => []
  | .num _ => []

/-- Result of a JavaScript property access: either undefined or a value. -/
inductive JsVal where
  | undefined
  | val (j : Json)

/-- Model of JavaScript property access value.name on a parsed JSON value:
a lookup on objects, undefined on other non-null values, and a thrown
TypeError on null. -/
def jsGetField (v : Json) (name : String) : Except String JsVal :=
  match v with
  | .null => .error ("Cannot read properties of null (reading " ++ name ++ ")")
  | .obj fields =>
      match fields.lookup name with
      | some j => .ok (.val j)
      | none => .ok .undefined
  | _ => .ok .undefined

/-- Truthiness of a property-access result: undefined is falsy. -/
def jsValFalsy : JsVal → Bool
  | .undefined => true
  | .val j => jsFalsy j

/-- Text handed to DB.prepare by the raw-query endpoint.  D1 requires the
query field to be SQL text; non-string query values are outside the
behavior the spec describes and are modelled as the empty statement. -/
def jsToSqlText : JsVal → String
  | .val (.str s) => s
  | _ => ""

/-- Decimal digit value of a character, if any. -/
def decVal (c : Char) : Option Nat :=
  if c.isDigit then some (c.toNat - '0'.toNat) else none

/-- Hexadecimal digit value of a character, if any. -/
def hexVal (c : Char) : Option Nat :=
  if c.isDigit then some (c.toNat - '0'.toNat)
  else if 'a' ≤ c ∧ c ≤ 'f' then some (c.toNat - 'a'.toNat + 10)
  else if 'A' ≤ c ∧ c ≤ 'F' then some (c.toNat - 'A'.toNat + 10)
  else none

/-- Value of the longest digit prefix of a character list, accumulated left
to right. -/
def digitsAcc (dv : Char → Option Nat) (base : Nat) : List Char → Nat → Nat
  | [], acc => acc
  | c :: cs, acc =>
      match dv c with
      | some d => digitsAcc dv base cs (acc * base + d)
      | none => acc

/-- Model of the JavaScript builtin parseInt applied with no radix argument,
as in the source lines parseInt(limit) and parseInt(offset): leading
whitespace is skipped, an optional sign and an optional 0x prefix are read,
and the longest digit prefix is converted; none models the NaN result
returned when no digit is found. -/
def parseIntJS (s : String) : Option Int :=
  let cs := s.toList.dropWhile (fun c => c == ' ' || c == '\t' || c == '\n' || c == '\r')
  let signed : Bool × List Char :=
    match cs with
    | '-' :: rest => (true, rest)
    | '+' :: rest => (false, rest)
    | _ => (false, cs)
  let parsed : Nat × List Char × (Char → Option Nat) :=
    match signed.2 with
    | '0' :: 'x' :: rest => (16, rest, hexVal)
    | '0' :: 'X' :: rest => (16, rest, hexVal)
    | _ => (10, signed.2, decVal)
  match parsed.2.1 with
  | [] => none
  | c :: _ =>
      match parsed.2.2 c with
      | some _ =>
          let n := digitsAcc parsed.2.2 parsed.1 parsed.2.1 0
          some (if signed.1 then -(n : Int) else (n : Int))
      | none => none

/-- Character class of the first regex character set A-Za-z_ . -/
def isIdentStart (c : Char) : Bool :=
  (decide ('a' ≤ c) && decide (c ≤ 'z')) ||
  (decide ('A' ≤ c) && decide (c ≤ 'Z')) || c == '_'

/-- Character class of the second regex character set A-Za-z0-9_ . -/
def isIdentChar (c : Char) : Bool :=
  isIdentStart c || (decide ('0' ≤ c) && decide (c ≤ '9'))

/-- Embedding of isValidTableName from src/index.ts: the test of the
anchored regex on the whole string. -/
def isValidTableName (tableName : String) : Bool :=
  match tableName.toList with
  | [] => false
  | c :: cs => isIdentStart c && cs.all isIdentChar

/-- Model of the JavaScript split method with a single-character separator,
as in path.split: splits at every separator occurrence, keeping empty
pieces. -/
def splitOnChar (sep : Char) : List Char → List (List Char)
  | [] => [[]]
  | c :: cs =>
      match splitOnChar sep cs with
      | r :: rs => if c = sep then [] :: r :: rs else (c :: r) :: rs
      | [] => if c = sep then [[], []] else [[c]]

/-- Segments of a URL path, as produced by path.split on the slash. -/
def pathParts (path : String) : List String :=
  (splitOnChar '/' path.toList).map (fun cs => String.mk cs)

/-- Match of the one-parameter route regex on the path: a leading slash,
the literal segment tables, then one non-empty slash-free segment, which is
exactly what path.split yields as its third element. -/
def matchTablesOne (path : String) : Option String :=
  match pathParts path with
  | ["", "tables", t] => if t == "" then none else some t
  | _ => none

/-- Match of the two-parameter route regex on the path. -/
def matchTablesTwo (path : String) : Option (String × String) :=
  match pathParts path with
  | ["", "tables", t, i] => if t == "" || i == "" then none else some (t, i)
  | _ => none

/-- Path shapes distinguished by the handler.  The shapes are pairwise
disjoint, so grouping the source's in-order pattern tests by shape and then
by method preserves its first-match semantics exactly. -/
inductive Route where
  | listTables
  | tableOne (t : String)
  | tableTwo (t : String) (i : String)
  | query
  | docs
  | noRoute
deriving DecidableEq

/-- Path classification mirroring the pattern tests of the source. -/
def parseRoute (path : String) : Route :=
  if path == "/tables" then .listTables
  else
    match matchTablesOne path with
    | some t => .tableOne t
    | none =>
        match matchTablesTwo path with
        | some ti => .tableTwo ti.1 ti.2
        | none =>
            if path == "/query" then .query
            else if path == "/" then .docs
            else .noRoute

/-- Values bound to statement placeholders: numbers, the NaN produced by a
failed parseInt, raw path strings, and JSON body values. -/
inductive BindValue where
  | num (n : Int)
  | nan
  | str (s : String)
  | jsonVal (v : Json)

/-- Bind value of a parseInt result; a none result is the JavaScript NaN. -/
def bindOfParse : Option Int → BindValue
  | some n => .num n
  | none => .nan

/-- Prepared statement: SQL text plus ordered bind parameters. -/
structure Stmt where
  sql : String
  binds : List BindValue

/-- Metadata D1 attaches to a statement result. -/
structure D1Meta where
  last_row_id : Int
  changes : Int

/-- Result of Statement.run. -/
structure RunResult where
  success : Bool
  meta : D1Meta

/-- Oracle for the D1 binding: each method either returns its result or
throws an error message. -/
structure Db where
  all : Stmt → Except String (List Json × D1Meta)
  first : Stmt → Except String (Option Json)
  run : Stmt → Except String RunResult

/-- JSON response envelope written by jsonResponse. -/
structure Envelope where
  success : Bool
  data : Option Json
  error : Option String
  meta : Option D1Meta

/-- Body of an HTTP response: empty (the OPTIONS branch), the HTML
documentation page, or a JSON envelope. -/
inductive RespBody where
  | empty
  | html (doc : String)
  | json (e : Envelope)

/-- HTTP response produced by the handler; CORS headers are attached
uniformly and carry no information, so they are not modelled. -/
structure HttpResponse where
  status : Nat
  body : RespBody

/-- Embedding of the helper jsonResponse from src/index.ts; the source
defaults the status argument to 200 and every call site below passes the
status the source uses. -/
def jsonResponse (e : Envelope) (status : Nat) : HttpResponse :=
  ⟨status, .json e⟩

/-- Envelope of a failure response. -/
def errEnv (msg : String) : Envelope :=
  ⟨false, none, some msg, none⟩

/-- Incoming request.  The apiKey field records the X-API-Key credential the
caller supplied; the source handler never reads any request header, which
the theorems below make explicit.  The body field is the outcome of
request.json(): a parsed value, or the message of the thrown parse error. -/
structure Request where
  apiKey : Option String
  method : String
  path : String
  limitParam : Option String
  offsetParam : Option String
  body : Except String Json

/-- Outcome of one routed request: a response, or a thrown error caught at
the handler boundary, together with the statements sent to the database. -/
abbrev HandlerResult := Except String HttpResponse × List Stmt

/-- Response of every table-name validation failure. -/
def invalidTableResult : HandlerResult :=
  (.ok (jsonResponse (errEnv "Invalid table name") 400), [])

/-- Response of the empty-body check on create and update. -/
def bodyRequiredResult : HandlerResult :=
  (.ok (jsonResponse (errEnv "Request body is required") 400), [])

/-- Response of the fall-through branch at the end of the route chain. -/
def notFoundResult : HandlerResult :=
  (.ok (jsonResponse (errEnv "Route not found") 404), [])

/-- Fixed statement of the list-tables route.  The string \x27 escapes
denote the single-quote character of the SQL text. -/
def listTablesSQL : String :=
  "SELECT name FROM sqlite_master WHERE type=\x27table\x27 AND name NOT LIKE \x27sqlite_%\x27 AND name NOT LIKE \x27_cf_%\x27"

/-- SQL text of the list-records route. -/
def selectAllSQL (t : String) : String :=
  "SELECT * FROM " ++ t ++ " LIMIT ? OFFSET ?"

/-- SQL text of the get-by-id route. -/
def selectByIdSQL (t : String) : String :=
  "SELECT * FROM " ++ t ++ " WHERE id = ?"

/-- SQL text of the create route, built from the body object keys exactly
as the source interpolates columns.join and the placeholder list. -/
def insertSQL (t : String) (cols : List String) : String :=
  "INSERT INTO " ++ t ++ " (" ++ String.intercalate ", " cols ++ ") VALUES (" ++
    String.intercalate ", " (cols.map (fun _ => "?")) ++ ")"

/-- SQL text of the update route, with the SET clause built from the body
object keys. -/
def updateSQL (t : String) (cols : List String) : String :=
  "UPDATE " ++ t ++ " SET " ++
    String.intercalate ", " (cols.map (fun col => col ++ " = ?")) ++ " WHERE id = ?"

/-- SQL text of the delete route. -/
def deleteSQL (t : String) : String :=
  "DELETE FROM " ++ t ++ " WHERE id = ?"

/-- Statement of the list-tables route. -/
def stmtListTables : Stmt := ⟨listTablesSQL, []⟩

/-- Statement of the list-records route: limit and offset come from the
query string, default to 100 and 0 when absent or empty (the JavaScript
or-default on the search-parameter lookup), pass through parseInt, and are
bound as the two placeholders. -/
def stmtListRecords (t : String) (limitP offsetP : Option String) : Stmt :=
  ⟨selectAllSQL t,
    [bindOfParse (parseIntJS (match limitP with | some s => if s == "" then "100" else s | none => "100")),
     bindOfParse (parseIntJS (match offsetP with | some s => if s == "" then "0" else s | none => "0"))]⟩

/-- Statement of the get-by-id route; the id is bound as the raw path
string. -/
def stmtGet (t i : String) : Stmt := ⟨selectByIdSQL t, [.str i]⟩

/-- Statement of the create route: columns from the body keys in order,
values bound in the same order. -/
def stmtInsert (t : String) (b : Json) : Stmt :=
  ⟨insertSQL t (jsObjectKeys b), (jsObjectValues b).map BindValue.jsonVal⟩

/-- Statement of the update route: values bound in key order, then the id. -/
def stmtUpdate (t i : String) (b : Json) : Stmt :=
  ⟨updateSQL t (jsObjectKeys b), (jsObjectValues b).map BindValue.jsonVal ++ [.str i]⟩

/-- Statement of the delete route. -/
def stmtDelete (t i : String) : Stmt := ⟨deleteSQL t, [.str i]⟩

/-- Branch of the source for GET on the tables path. -/
def listTablesH (db : Db) : HandlerResult :=
  match db.all stmtListTables with
  | .error e => (.error e, [stmtListTables])
  | .ok (results, _) =>
      (.ok (jsonResponse ⟨true, some (.arr results), none, none⟩ 200), [stmtListTables])

/-- Branch of the source for GET on one table: validate the name, then
select with limit and offset. -/
def listRecords (t : String) (limitP offsetP : Option String) (db : Db) : HandlerResult :=
  if !isValidTableName t then invalidTableResult
  else
    match db.all (stmtListRecords t limitP offsetP) with
    | .error e => (.error e, [stmtListRecords t limitP offsetP])
    | .ok (results, meta) =>
        (.ok (jsonResponse ⟨true, some (.arr results), none, some meta⟩ 200),
         [stmtListRecords t limitP offsetP])

/-- Branch of the source for GET on one record: a null first result yields
the record-not-found response. -/
def getRecord (t i : String) (db : Db) : HandlerResult :=
  if !isValidTableName t then invalidTableResult
  else
    match db.first (stmtGet t i) with
    | .error e => (.error e, [stmtGet t i])
    | .ok none => (.ok (jsonResponse (errEnv "Record not found") 404), [stmtGet t i])
    | .ok (some row) =>
        (.ok (jsonResponse ⟨true, some row, none, none⟩ 200), [stmtGet t i])

/-- Branch of the source for POST on one table: validate the name, read the
body (whose parse error propagates to the outer catch), reject falsy or
key-less bodies, then insert; the response status is 201 and its success
flag is copied from the run result. -/
def createRecord (t : String) (body : Except String Json) (db : Db) : HandlerResult :=
  if !isValidTableName t then invalidTableResult
  else
    match body with
    | .error e => (.error e, [])
    | .ok b =>
        if jsFalsy b || (jsObjectKeys b).length == 0 then bodyRequiredResult
        else
          match db.run (stmtInsert t b) with
          | .error e => (.error e, [stmtInsert t b])
          | .ok r =>
              (.ok (jsonResponse
                ⟨r.success,
                 some (.obj [("lastRowId", .num r.meta.last_row_id), ("changes", .num r.meta.changes)]),
                 none, none⟩ 201), [stmtInsert t b])

/-- Branch of the source for PUT on one record: zero affected rows yield the
record-not-found response. -/
def updateRecord (t i : String) (body : Except String Json) (db : Db) : HandlerResult :=
  if !isValidTableName t then invalidTableResult
  else
    match body with
    | .error e => (.error e, [])
    | .ok b =>
        if jsFalsy b || (jsObjectKeys b).length == 0 then bodyRequiredResult
        else
          match db.run (stmtUpdate t i b) with
          | .error e => (.error e, [stmtUpdate t i b])
          | .ok r =>
              if r.meta.changes == 0 then
                (.ok (jsonResponse (errEnv "Record not found") 404), [stmtUpdate t i b])
              else
                (.ok (jsonResponse ⟨r.success, some (.obj [("changes", .num r.meta.changes)]), none, none⟩ 200),
                 [stmtUpdate t i b])

/-- Branch of the source for DELETE on one record. -/
def deleteRecord (t i : String) (db : Db) : HandlerResult :=
  if !isValidTableName t then invalidTableResult
  else
    match db.run (stmtDelete t i) with
    | .error e => (.error e, [stmtDelete t i])
    | .ok r =>
        if r.meta.changes == 0 then
          (.ok (jsonResponse (errEnv "Record not found") 404), [stmtDelete t i])
        else
          (.ok (jsonResponse ⟨r.success, some (.obj [("changes", .num r.meta.changes)]), none, none⟩ 200),
           [stmtDelete t i])

/-- Bind parameters of the raw-query endpoint: an array params field of
positive length is spread into bind, anything else leaves the statement
unbound. -/
def rawParams (b : Json) : List BindValue :=
  match jsGetField b "params" with
  | .ok (.val (.arr xs)) => if 0 < xs.length then xs.map BindValue.jsonVal else []
  | _ => []

/-- Statement of the raw-query endpoint. -/
def stmtRaw (qv : JsVal) (b : Json) : Stmt := ⟨jsToSqlText qv, rawParams b⟩

/-- Branch of the source for POST on the query path: a falsy query field is
rejected, and the statement result is returned with its metadata. -/
def rawQuery (body : Except String Json) (db : Db) : HandlerResult :=
  match body with
  | .error e => (.error e, [])
  | .ok b =>
      match jsGetField b "query" with
      | .error e => (.error e, [])
      | .ok qv =>
          if jsValFalsy qv then (.ok (jsonResponse (errEnv "Query is required") 400), [])
          else
            match db.all (stmtRaw qv b) with
            | .error e => (.error e, [stmtRaw qv b])
            | .ok (results, meta) =>
                (.ok (jsonResponse ⟨true, some (.arr results), none, some meta⟩ 200),
                 [stmtRaw qv b])

/-- Stands for the static HTML documentation string returned by getApiDocs;
its text is outside the scope of the modelled behavior. -/
def getApiDocs : String := "D1 Database CRUD API documentation"

/-- Route dispatch of the source, grouped by the pairwise-disjoint path
shapes; within a shape the method tests run in source order, and a request
matching no shape-method pair falls through to the route-not-found
response. -/
def route (req : Request) (db : Db) : HandlerResult :=
  match parseRoute req.path with
  | .listTables =>
      if req.method == "GET" then listTablesH db else notFoundResult
  | .tableOne t =>
      if req.method == "GET" then listRecords t req.limitParam req.offsetParam db
      else if req.method == "POST" then createRecord t req.body db
      else notFoundResult
  | .tableTwo t i =>
      if req.method == "GET" then getRecord t i db
      else if req.method == "PUT" then updateRecord t i req.body db
      else if req.method == "DELETE" then deleteRecord t i db
      else notFoundResult
  | .query =>
      if req.method == "POST" then rawQuery req.body db else notFoundResult
  | .docs =>
      if req.method == "GET" then (.ok ⟨200, .html getApiDocs⟩, []) else notFoundResult
  | .noRoute => notFoundResult

/-- Response of the OPTIONS branch: an empty body with CORS headers only. -/
def corsPreflight : HttpResponse := ⟨200, .empty⟩

/-- Catch of the source at the handler boundary: a thrown message is mapped
to status 500, the falsy-message fallback of error.message applying when
the message is empty. -/
def finalize : HandlerResult → HttpResponse × List Stmt
  | (.ok r, log) => (r, log)
  | (.error msg, log) =>
      (jsonResponse (errEnv (if msg == "" then "Internal server error" else msg)) 500, log)

/-- Embedding of the exported fetch handler: OPTIONS short-circuits before
the try block, every other request is routed and its thrown errors are
caught at the boundary. -/
def handle (req : Request) (db : Db) : HttpResponse × List Stmt :=
  if req.method == "OPTIONS" then (corsPreflight, [])
  else finalize (route req db)

/-- Metadata of a statement that touched nothing. -/
def meta0 : D1Meta := ⟨0, 0⟩

/-- Oracle of an empty database: selects return nothing and runs report
zero changes. -/
def dbEmpty : Db :=
  ⟨fun _ => .ok ([], meta0), fun _ => .ok none, fun _ => .ok ⟨true, meta0⟩⟩

/-- Oracle of a database where every run changes one row with row id 1. -/
def dbChanges1 : Db :=
  ⟨fun _ => .ok ([], meta0), fun _ => .ok (some (.obj [("id", .num 1)])),
   fun _ => .ok ⟨true, ⟨1, 1⟩⟩⟩

/-- Oracle whose run results carry a false success flag while still
reporting a changed row, exercising the flag the source copies into its
response envelopes. -/
def dbRunNoSuccess : Db :=
  ⟨fun _ => .ok ([], meta0), fun _ => .ok none, fun _ => .ok ⟨false, ⟨7, 1⟩⟩⟩

/-- Oracle that throws with an empty message on every call. -/
def dbThrowEmpty : Db :=
  ⟨fun _ => .error "", fun _ => .error "", fun _ => .error ""⟩

/-- Oracle that throws with a fixed engine message on every call. -/
def dbThrowMsg : Db :=
  ⟨fun _ => .error "no such table: users", fun _ => .error "no such table: users",
   fun _ => .error "no such table: users"⟩

/-- Envelope invariant of the spec: a false success flag comes with an
error message and no data, and a true success flag comes with no error. -/
def envOk (e : Envelope) : Prop :=
  (e.success = false → e.error ≠ none ∧ e.data = none) ∧
  (e.success = true → e.error = none)

/-- Truth of some route pattern of the fixed table matching the given path
shape and method; OPTIONS matches unconditionally because the source
answers it before routing. -/
def matchedRoute (r : Route) (m : String) : Bool :=
  m == "OPTIONS" ||
  match r with
  | .listTables => m == "GET"
  | .tableOne _ => m == "GET" || m == "POST"
  | .tableTwo _ _ => m == "GET" || m == "PUT" || m == "DELETE"
  | .query => m == "POST"
  | .docs => m == "GET"
  | .noRoute => false

/-- Enumeration of the outcomes of the list-tables branch. -/
theorem out_listTablesH (db : Db) :
    (∃ e, db.all stmtListTables = .error e ∧
        listTablesH db = (.error e, [stmtListTables])) ∨
    (∃ rs m, db.all stmtListTables = .ok (rs, m) ∧
        listTablesH db
          = (.ok (jsonResponse ⟨true, some (.arr rs), none, none⟩ 200), [stmtListTables])) := by
  rcases h : db.all stmtListTables with e | ⟨rs, m⟩
  · exact Or.inl ⟨e, rfl, by simp [listTablesH, h]⟩
  · exact Or.inr ⟨rs, m, rfl, by simp [listTablesH, h]⟩

/-- Enumeration of the outcomes of the list-records branch. -/
theorem out_listRecords (t : String) (lp op : Option String) (db : Db) :
    (isValidTableName t = false ∧ listRecords t lp op db = invalidTableResult) ∨
    (isValidTableName t = true ∧ ∃ e, db.all (stmtListRecords t lp op) = .error e ∧
        listRecords t lp op db = (.error e, [stmtListRecords t lp op])) ∨
    (isValidTableName t = true ∧ ∃ rs m, db.all (stmtListRecords t lp op) = .ok (rs, m) ∧
        listRecords t lp op db
          = (.ok (jsonResponse ⟨true, some (.arr rs), none, some m⟩ 200),
             [stmtListRecords t lp op])) := by
  cases hv : isValidTableName t
  · exact Or.inl ⟨rfl, by simp [listRecords, hv]⟩
  · rcases h : db.all (stmtListRecords t lp op) with e | ⟨rs, m⟩
    · exact Or.inr (Or.inl ⟨rfl, e, rfl, by simp [listRecords, hv, h]⟩)
    · exact Or.inr (Or.inr ⟨rfl, rs, m, rfl, by simp [listRecords, hv, h]⟩)

/-- Enumeration of the outcomes of the get-by-id branch. -/
theorem out_getRecord (t i : String) (db : Db) :
    (isValidTableName t = false ∧ getRecord t i db = invalidTableResult) ∨
    (isValidTableName t = true ∧ ∃ e, db.first (stmtGet t i) = .error e ∧
        getRecord t i db = (.error e, [stmtGet t i])) ∨
    (isValidTableName t = true ∧ db.first (stmtGet t i) = .ok none ∧
        getRecord t i db
          = (.ok (jsonResponse (errEnv "Record not found") 404), [stmtGet t i])) ∨
    (isValidTableName t = true ∧ ∃ row, db.first (stmtGet t i) = .ok (some row) ∧
        getRecord t i db
          = (.ok (jsonResponse ⟨true, some row, none, none⟩ 200), [stmtGet t i])) := by
  cases hv : isValidTableName t
  · exact Or.inl ⟨rfl, by simp [getRecord, hv]⟩
  · rcases h : db.first (stmtGet t i) with e | ro
    · exact Or.inr (Or.inl ⟨rfl, e, rfl, by simp [getRecord, hv, h]⟩)
    · cases ro with
      | none => exact Or.inr (Or.inr (Or.inl ⟨rfl, rfl, by simp [getRecord, hv, h]⟩))
      | some row =>
          exact Or.inr (Or.inr (Or.inr ⟨rfl, row, rfl, by simp [getRecord, hv, h]⟩))

/-- Enumeration of the outcomes of the create branch. -/
theorem out_createRecord (t : String) (body : Except String Json) (db : Db) :
    (isValidTableName t = false ∧ createRecord t body db = invalidTableResult) ∨
    (isValidTableName t = true ∧ ∃ e, body = .error e ∧
        createRecord t body db = (.error e, [])) ∨
    (isValidTableName t = true ∧ ∃ b, body = .ok b ∧
        (jsFalsy b || (jsObjectKeys b).length == 0) = true ∧
        createRecord t body db = bodyRequiredResult) ∨
    (isValidTableName t = true ∧ ∃ b e, body = .ok b ∧
        (jsFalsy b || (jsObjectKeys b).length == 0) = false ∧
        db.run (stmtInsert t b) = .error e ∧
        createRecord t body db = (.error e, [stmtInsert t b])) ∨
    (isValidTableName t = true ∧ ∃ b r, body = .ok b ∧
        (jsFalsy b || (jsObjectKeys b).length == 0) = false ∧
        db.run (stmtInsert t b) = .ok r ∧
        createRecord t body db
          = (.ok (jsonResponse
              ⟨r.success,
               some (.obj [("lastRowId", .num r.meta.last_row_id),
                           ("changes", .num r.meta.changes)]),
               none, none⟩ 201), [stmtInsert t b])) := by
  cases hv : isValidTableName t
  · exact Or.inl ⟨rfl, by simp [createRecord, hv]⟩
  · rcases body with e | b
    · exact Or.inr (Or.inl ⟨rfl, e, rfl, by simp [createRecord, hv]⟩)
    · cases hb : (jsFalsy b || (jsObjectKeys b).length == 0)
      · rcases h : db.run (stmtInsert t b) with e | r
        · exact Or.inr (Or.inr (Or.inr (Or.inl
            ⟨rfl, b, e, rfl, hb, h, by simp [createRecord, hv, hb, h]⟩)))
        · exact Or.inr (Or.inr (Or.inr (Or.inr
            ⟨rfl, b, r, rfl, hb, h, by simp [createRecord, hv, hb, h]⟩)))
      · exact Or.inr (Or.inr (Or.inl ⟨rfl, b, rfl, hb, by simp [createRecord, hv, hb]⟩))

/-- Enumeration of the outcomes of the update branch. -/
theorem out_updateRecord (t i : String) (body : Except String Json) (db : Db) :
    (isValidTableName t = false ∧ updateRecord t i body db = invalidTableResult) ∨
    (isValidTableName t = true ∧ ∃ e, body = .error e ∧
        updateRecord t i body db = (.error e, [])) ∨
    (isValidTableName t = true ∧ ∃ b, body = .ok b ∧
        (jsFalsy b || (jsObjectKeys b).length == 0) = true ∧
        updateRecord t i body db = bodyRequiredResult) ∨
    (isValidTableName t = true ∧ ∃ b e, body = .ok b ∧
        (jsFalsy b || (jsObjectKeys b).length == 0) = false ∧
        db.run (stmtUpdate t i b) = .error e ∧
        updateRecord t i body db = (.error e, [stmtUpdate t i b])) ∨
    (isValidTableName t = true ∧ ∃ b r, body = .ok b ∧
        (jsFalsy b || (jsObjectKeys b).length == 0) = false ∧
        db.run (stmtUpdate t i b) = .ok r ∧ r.meta.changes = 0 ∧
        updateRecord t i body db
          = (.ok (jsonResponse (errEnv "Record not found") 404), [stmtUpdate t i b])) ∨
    (isValidTableName t = true ∧ ∃ b r, body = .ok b ∧
        (jsFalsy b || (jsObjectKeys b).length == 0) = false ∧
        db.run (stmtUpdate t i b) = .ok r ∧ r.meta.changes ≠ 0 ∧
        updateRecord t i body db
          = (.ok (jsonResponse
              ⟨r.success, some (.obj [("changes", .num r.meta.changes)]), none, none⟩ 200),
             [stmtUpdate t i b])) := by
  cases hv : isValidTableName t
  · exact Or.inl ⟨rfl, by simp [updateRecord, hv]⟩
  · rcases body with e | b
    · exact Or.inr (Or.inl ⟨rfl, e, rfl, by simp [updateRecord, hv]⟩)
    · cases hb : (jsFalsy b || (jsObjectKeys b).length == 0)
      · rcases h : db.run (stmtUpdate t i b) with e | r
        · exact Or.inr (Or.inr (Or.inr (Or.inl
            ⟨rfl, b, e, rfl, hb, h, by simp [updateRecord, hv, hb, h]⟩)))
        · cases hc : (r.meta.changes == 0)
          · refine Or.inr (Or.inr (Or.inr (Or.inr (Or.inr
              ⟨rfl, b, r, rfl, hb, h, by simpa using hc, ?_⟩))))
            simp [updateRecord, hv, hb, h, hc]
          · refine Or.inr (Or.inr (Or.inr (Or.inr (Or.inl
              ⟨rfl, b, r, rfl, hb, h, by simpa using hc, ?_⟩))))
            simp [updateRecord, hv, hb, h, hc]
      · exact Or.inr (Or.inr (Or.inl ⟨rfl, b, rfl, hb, by simp [updateRecord, hv, hb]⟩))

/-- Enumeration of the outcomes of the delete branch. -/
theorem out_deleteRecord (t i : String) (db : Db) :
    (isValidTableName t = false ∧ deleteRecord t i db = invalidTableResult) ∨
    (isValidTableName t = true ∧ ∃ e, db.run (stmtDelete t i) = .error e ∧
        deleteRecord t i db = (.error e, [stmtDelete t i])) ∨
    (isValidTableName t = true ∧ ∃ r, db.run (stmtDelete t i) = .ok r ∧
        r.meta.changes = 0 ∧
        deleteRecord t i db
          = (.ok (jsonResponse (errEnv "Record not found") 404), [stmtDelete t i])) ∨
    (isValidTableName t = true ∧ ∃ r, db.run (stmtDelete t i) = .ok r ∧
        r.meta.changes ≠ 0 ∧
        deleteRecord t i db
          = (.ok (jsonResponse
              ⟨r.success, some (.obj [("changes", .num r.meta.changes)]), none, none⟩ 200),
             [stmtDelete t i])) := by
  cases hv : isValidTableName t
  · exact Or.inl ⟨rfl, by simp [deleteRecord, hv]⟩
  · rcases h : db.run (stmtDelete t i) with e | r
    · exact Or.inr (Or.inl ⟨rfl, e, rfl, by simp [deleteRecord, hv, h]⟩)
    · cases hc : (r.meta.changes == 0)
      · exact Or.inr (Or.inr (Or.inr
          ⟨rfl, r, rfl, by simpa using hc, by simp [deleteRecord, hv, h, hc]⟩))
      · exact Or.inr (Or.inr (Or.inl
          ⟨rfl, r, rfl, by simpa using hc, by simp [deleteRecord, hv, h, hc]⟩))

/-- Enumeration of the outcomes of the raw-query branch. -/
theorem out_rawQuery (body : Except String Json) (db : Db) :
    (∃ e, body = .error e ∧ rawQuery body db = (.error e, [])) ∨
    (∃ b e, body = .ok b ∧ jsGetField b "query" = .error e ∧
        rawQuery body db = (.error e, [])) ∨
    (∃ b qv, body = .ok b ∧ jsGetField b "query" = .ok qv ∧ jsValFalsy qv = true ∧
        rawQuery body db = (.ok (jsonResponse (errEnv "Query is required") 400), [])) ∨
    (∃ st e, rawQuery body db = (.error e, [st])) ∨
    (∃ st rs m, rawQuery body db
        = (.ok (jsonResponse ⟨true, some (.arr rs), none, some m⟩ 200), [st])) := by
  rcases body with e | b
  · exact Or.inl ⟨e, rfl, by simp [rawQuery]⟩
  · rcases hq : jsGetField b "query" with e | qv
    · exact Or.inr (Or.inl ⟨b, e, rfl, hq, by simp [rawQuery, hq]⟩)
    · cases hf : jsValFalsy qv
      · rcases h : db.all (stmtRaw qv b) with e | ⟨rs, m⟩
        · refine Or.inr (Or.inr (Or.inr (Or.inl ⟨stmtRaw qv b, e, ?_⟩)))
          simp [rawQuery, hq, hf, h]
        · refine Or.inr (Or.inr (Or.inr (Or.inr ⟨stmtRaw qv b, rs, m, ?_⟩)))
          simp [rawQuery, hq, hf, h]
      · exact Or.inr (Or.inr (Or.inl ⟨b, qv, rfl, hq, hf, by simp [rawQuery, hq, hf]⟩))

/-- Route dispatch answers OPTIONS requests with the fall-through result in
every shape, because no method test matches; the real OPTIONS answer is
produced before routing. -/
theorem route_options (req : Request) (db : Db) (hm : req.method = "OPTIONS") :
    route req db = notFoundResult := by
  cases hp : parseRoute req.path <;> simp [route, hp, hm]

/-- C1: the spec and the repository README require every request to a
protected route with a missing, empty, or mismatched X-API-Key to receive
status 401 with the unauthorized envelope and no database call; the source
contains no authentication check at all.  At the failing input, a GET of
the tables route with no credential, the handler serves the request with
status 200, sends one statement to the database, and its behavior is
independent of the supplied credential. -/
theorem c1_missing_api_key_is_served :
    (handle ⟨none, "GET", "/tables", none, none, .ok .null⟩ dbEmpty).1
      = jsonResponse ⟨true, some (.arr []), none, none⟩ 200 ∧
    (handle ⟨none, "GET", "/tables", none, none, .ok .null⟩ dbEmpty).2
      = [stmtListTables] ∧
    (∀ (k₁ k₂ : Option String) (m p : String) (lp op : Option String)
        (b : Except String Json) (db : Db),
        handle ⟨k₁, m, p, lp, op, b⟩ db = handle ⟨k₂, m, p, lp, op, b⟩ db) :=
  ⟨rfl, rfl, fun _ _ _ _ _ _ _ _ => rfl⟩

/-- C2: every table-scoped route accepts a table name exactly when it
passes the identifier regex: a failing name yields the invalid-table
response with no database call on all five routes, and a passing name never
yields that response. -/
theorem c2_table_name_gate (t i : String) (lp op : Option String)
    (body : Except String Json) (db : Db) :
    (isValidTableName t = false →
        listRecords t lp op db = invalidTableResult ∧
        getRecord t i db = invalidTableResult ∧
        createRecord t body db = invalidTableResult ∧
        updateRecord t i body db = invalidTableResult ∧
        deleteRecord t i db = invalidTableResult) ∧
    (isValidTableName t = true →
        (listRecords t lp op db).1 ≠ invalidTableResult.1 ∧
        (getRecord t i db).1 ≠ invalidTableResult.1 ∧
        (createRecord t body db).1 ≠ invalidTableResult.1 ∧
        (updateRecord t i body db).1 ≠ invalidTableResult.1 ∧
        (deleteRecord t i db).1 ≠ invalidTableResult.1) := by
  constructor
  · intro hv
    exact ⟨by simp [listRecords, hv], by simp [getRecord, hv],
      by simp [createRecord, hv], by simp [updateRecord, hv],
      by simp [deleteRecord, hv]⟩
  · intro hv
    refine ⟨?_, ?_, ?_, ?_, ?_⟩
    · rcases hdb : db.all (stmtListRecords t lp op) with e | pr <;>
        simp [listRecords, hv, hdb, invalidTableResult, jsonResponse, errEnv]
    · rcases hdb : db.first (stmtGet t i) with e | ro
      · simp [getRecord, hv, hdb, invalidTableResult]
      · cases ro <;>
          simp [getRecord, hv, hdb, invalidTableResult, jsonResponse, errEnv]
    · rcases body with e | b
      · simp [createRecord, hv, invalidTableResult]
      · by_cases hb : (jsFalsy b || (jsObjectKeys b).length == 0) = true
        · simp [createRecord, hv, hb, bodyRequiredResult, invalidTableResult,
            jsonResponse, errEnv]
        · rcases hdb : db.run (stmtInsert t b) with e | r <;>
            simp [createRecord, hv, hb, hdb, invalidTableResult, jsonResponse, errEnv]
    · rcases body with e | b
      · simp [updateRecord, hv, invalidTableResult]
      · by_cases hb : (jsFalsy b || (jsObjectKeys b).length == 0) = true
        · simp [updateRecord, hv, hb, bodyRequiredResult, invalidTableResult,
            jsonResponse, errEnv]
        · rcases hdb : db.run (stmtUpdate t i b) with e | r
          · simp [updateRecord, hv, hb, hdb, invalidTableResult]
          · by_cases hc : (r.meta.changes == 0) = true <;>
              simp [updateRecord, hv, hb, hdb, hc, invalidTableResult,
                jsonResponse, errEnv]
    · rcases hdb : db.run (stmtDelete t i) with e | r
      · simp [deleteRecord, hv, hdb, invalidTableResult]
      · by_cases hc : (r.meta.changes == 0) = true <;>
          simp [deleteRecord, hv, hdb, hc, invalidTableResult, jsonResponse, errEnv]

/-- C2 witness: the gate applied to a name with a space, rejected on the
list route, and to a passing name, not rejected there. -/
theorem c2_table_name_gate_witness :
    listRecords "a b" none none dbEmpty = invalidTableResult ∧
    (listRecords "users" none none dbEmpty).1 ≠ invalidTableResult.1 :=
  ⟨((c2_table_name_gate "a b" "1" none none (.ok .null) dbEmpty).1 rfl).1,
   ((c2_table_name_gate "users" "1" none none (.ok .null) dbEmpty).2 rfl).1⟩

/-- C3 counterexample: the column name taken from a request-body key can
fail the identifier validator and is still interpolated into the SQL text
of the executed insert statement, so it is false that identifiers reach the
SQL text only after passing the validator. -/
theorem c3_counterexample_body_key_not_validated :
    isValidTableName "a b" = false ∧
    (createRecord "users" (.ok (.obj [("a b", .num 1)])) dbEmpty).2.map Stmt.sql
      = ["INSERT INTO users (a b) VALUES (?)"] ∧
    (createRecord "users" (.ok (.obj [("a b", .num 1)])) dbEmpty).1
      = .ok (jsonResponse
          ⟨true, some (.obj [("lastRowId", .num 0), ("changes", .num 0)]), none, none⟩ 201) :=
  ⟨rfl, rfl, rfl⟩

/-- C3 amended: in every statement a table-scoped route sends to the
database the table identifier has passed the validator, the SQL text is a
function of the table name and the body object keys alone so caller values
appear only among the bind parameters, and the body-derived column names
are interpolated into that text without any validation. -/
theorem c3_amended_identifier_value_discipline
    (t i : String) (lp op : Option String) (body : Except String Json) (db : Db) :
    (∀ s ∈ (listRecords t lp op db).2,
        isValidTableName t = true ∧ s.sql = selectAllSQL t) ∧
    (∀ s ∈ (getRecord t i db).2,
        isValidTableName t = true ∧ s.sql = selectByIdSQL t ∧ s.binds = [.str i]) ∧
    (∀ s ∈ (createRecord t body db).2,
        isValidTableName t = true ∧ ∃ b, body = .ok b ∧
          s.sql = insertSQL t (jsObjectKeys b) ∧
          s.binds = (jsObjectValues b).map BindValue.jsonVal) ∧
    (∀ s ∈ (updateRecord t i body db).2,
        isValidTableName t = true ∧ ∃ b, body = .ok b ∧
          s.sql = updateSQL t (jsObjectKeys b) ∧
          s.binds = (jsObjectValues b).map BindValue.jsonVal ++ [.str i]) ∧
    (∀ s ∈ (deleteRecord t i db).2,
        isValidTableName t = true ∧ s.sql = deleteSQL t ∧ s.binds = [.str i]) := by
  refine ⟨?_, ?_, ?_, ?_, ?_⟩ <;> intro s hs
  · cases hv : isValidTableName t
    · simp [listRecords, hv, invalidTableResult] at hs
    · rcases hdb : db.all (stmtListRecords t lp op) with e | pr <;>
        simp [listRecords, hv, hdb] at hs <;> subst hs <;> exact ⟨rfl, rfl⟩
  · cases hv : isValidTableName t
    · simp [getRecord, hv, invalidTableResult] at hs
    · rcases hdb : db.first (stmtGet t i) with e | ro
      · simp [getRecord, hv, hdb] at hs; subst hs; exact ⟨rfl, rfl, rfl⟩
      · cases ro <;> simp [getRecord, hv, hdb] at hs <;> subst hs <;> exact ⟨rfl, rfl, rfl⟩
  · cases hv : isValidTableName t
    · simp [createRecord, hv, invalidTableResult] at hs
    · rcases body with e | b
      · simp [createRecord, hv] at hs
      · by_cases hb : (jsFalsy b || (jsObjectKeys b).length == 0) = true
        · simp [createRecord, hv, hb, bodyRequiredResult] at hs
        · rcases hdb : db.run (stmtInsert t b) with e | r <;>
            simp [createRecord, hv, hb, hdb] at hs <;> subst hs <;>
            exact ⟨rfl, b, rfl, rfl, rfl⟩
  · cases hv : isValidTableName t
    · simp [updateRecord, hv, invalidTableResult] at hs
    · rcases body with e | b
      · simp [updateRecord, hv] at hs
      · by_cases hb : (jsFalsy b || (jsObjectKeys b).length == 0) = true
        · simp [updateRecord, hv, hb, bodyRequiredResult] at hs
        · rcases hdb : db.run (stmtUpdate t i b) with e | r
          · simp [updateRecord, hv, hb, hdb] at hs; subst hs
            exact ⟨rfl, b, rfl, rfl, rfl⟩
          · by_cases hc : (r.meta.changes == 0) = true <;>
              simp [updateRecord, hv, hb, hdb, hc] at hs <;> subst hs <;>
              exact ⟨rfl, b, rfl, rfl, rfl⟩
  · cases hv : isValidTableName t
    · simp [deleteRecord, hv, invalidTableResult] at hs
    · rcases hdb : db.run (stmtDelete t i) with e | r
      · simp [deleteRecord, hv, hdb] at hs; subst hs; exact ⟨rfl, rfl, rfl⟩
      · by_cases hc : (r.meta.changes == 0) = true <;>
          simp [deleteRecord, hv, hdb, hc] at hs <;> subst hs <;> exact ⟨rfl, rfl, rfl⟩

/-- C3 witness: the amended theorem applied to a concrete insert. -/
theorem c3_amended_witness :
    isValidTableName "users" = true ∧
    ∃ b, (Except.ok (Json.obj [("name", Json.str "A")]) : Except String Json) = .ok b ∧
      (stmtInsert "users" (Json.obj [("name", Json.str "A")])).sql
        = insertSQL "users" (jsObjectKeys b) ∧
      (stmtInsert "users" (Json.obj [("name", Json.str "A")])).binds
        = (jsObjectValues b).map BindValue.jsonVal :=
  (c3_amended_identifier_value_discipline "users" "1" none none
      (.ok (.obj [("name", .str "A")])) dbEmpty).2.2.1
    (stmtInsert "users" (.obj [("name", .str "A")]))
    (List.mem_singleton_self _)

/-- C4 counterexample: a missing request body makes request.json() throw,
and the handler answers 500 with the parse-error message, not 400 with the
body-required message, falsifying the missing-body clause of the claim. -/
theorem c4_counterexample_missing_body_is_500 :
    (handle ⟨none, "POST", "/tables/users", none, none,
        .error "Unexpected end of JSON input"⟩ dbEmpty).1
      = jsonResponse (errEnv "Unexpected end of JSON input") 500 ∧
    (handle ⟨none, "POST", "/tables/users", none, none,
        .error "Unexpected end of JSON input"⟩ dbEmpty).2 = [] :=
  ⟨rfl, rfl⟩

/-- C4 amended: for a valid table name on the create route, a parsed body
that is falsy or has no keys (in particular the empty object) yields the
body-required 400 response with no database call; a body whose JSON parsing
threw reaches the catch-all and yields 500 with the thrown message; and a
truthy body with keys yields the insert, whose successful run is answered
with status 201 exposing the last inserted row id and the change count. -/
theorem c4_create_body_and_status (t : String) (db : Db) (b : Json)
    (e : String) (r : RunResult) (h : isValidTableName t = true) :
    (jsFalsy b = true ∨ jsObjectKeys b = [] →
        createRecord t (.ok b) db = bodyRequiredResult) ∧
    (finalize (createRecord t (.error e) db)
        = (jsonResponse (errEnv (if e == "" then "Internal server error" else e)) 500, [])) ∧
    (jsFalsy b = false → jsObjectKeys b ≠ [] → db.run (stmtInsert t b) = .ok r →
        createRecord t (.ok b) db
          = (.ok (jsonResponse
              ⟨r.success,
               some (.obj [("lastRowId", .num r.meta.last_row_id),
                           ("changes", .num r.meta.changes)]),
               none, none⟩ 201), [stmtInsert t b])) := by
  refine ⟨?_, ?_, ?_⟩
  · rintro (hb | hb) <;> simp [createRecord, h, hb]
  · simp [createRecord, h, finalize]
  · intro hb hk hdb
    simp [createRecord, h, hb, hk, hdb]

/-- C4 witness: the amended theorem applied to the empty object and to a
one-field object against a database whose run changes one row. -/
theorem c4_create_body_and_status_witness :
    createRecord "users" (.ok (.obj [])) dbChanges1 = bodyRequiredResult ∧
    createRecord "users" (.ok (.obj [("name", .str "A")])) dbChanges1
      = (.ok (jsonResponse
          ⟨true, some (.obj [("lastRowId", .num 1), ("changes", .num 1)]), none, none⟩ 201),
         [stmtInsert "users" (.obj [("name", .str "A")])]) :=
  ⟨(c4_create_body_and_status "users" dbChanges1 (.obj []) "x" ⟨true, ⟨1, 1⟩⟩ rfl).1
      (Or.inr rfl),
   (c4_create_body_and_status "users" dbChanges1 (.obj [("name", .str "A")]) "x"
      ⟨true, ⟨1, 1⟩⟩ rfl).2.2 rfl (fun hk => List.noConfusion hk) rfl⟩

/-- C5 counterexample: a limit value that parseInt cannot parse is bound as
NaN, not treated as the default 100, falsifying the parse-failure clause of
the claim. -/
theorem c5_counterexample_unparsable_limit_not_defaulted :
    parseIntJS "abc" = none ∧
    (listRecords "users" (some "abc") none dbEmpty).2
      = [⟨selectAllSQL "users", [.nan, .num 0]⟩] ∧
    BindValue.nan ≠ BindValue.num 100 :=
  ⟨rfl, rfl, fun h => BindValue.noConfusion h⟩

/-- C5 amended: for a valid table name the list route always executes the
select statement with limit and offset as its two bind parameters; an
omitted or empty query parameter defaults to 100 or 0, and a supplied
non-empty value is bound as its parseInt result, whose NaN outcome is
bound as-is rather than replaced by the default. -/
theorem c5_amended_limit_offset_binding
    (t : String) (lp op : Option String) (db : Db)
    (h : isValidTableName t = true) :
    (listRecords t lp op db).2 = [stmtListRecords t lp op] ∧
    (stmtListRecords t lp op).sql = selectAllSQL t ∧
    ((lp = none ∨ lp = some "") → (op = none ∨ op = some "") →
        (stmtListRecords t lp op).binds = [.num 100, .num 0]) ∧
    (∀ ls os, lp = some ls → ls ≠ "" → op = some os → os ≠ "" →
        (stmtListRecords t lp op).binds
          = [bindOfParse (parseIntJS ls), bindOfParse (parseIntJS os)]) := by
  refine ⟨?_, rfl, ?_, ?_⟩
  · rcases hdb : db.all (stmtListRecords t lp op) with e | pr <;>
      simp [listRecords, h, hdb]
  · rintro (rfl | rfl) (rfl | rfl) <;> rfl
  · rintro ls os rfl hls rfl hos
    simp [stmtListRecords, hls, hos]

/-- C5 witness: the amended theorem applied with both parameters omitted
and both parameters supplied. -/
theorem c5_amended_witness :
    (listRecords "users" none none dbEmpty).2 = [stmtListRecords "users" none none] ∧
    (stmtListRecords "users" none none).binds = [.num 100, .num 0] ∧
    (stmtListRecords "users" (some "7") (some "abc")).binds
      = [bindOfParse (parseIntJS "7"), bindOfParse (parseIntJS "abc")] :=
  ⟨(c5_amended_limit_offset_binding "users" none none dbEmpty rfl).1,
   (c5_amended_limit_offset_binding "users" none none dbEmpty rfl).2.2.1
     (Or.inl rfl) (Or.inl rfl),
   (c5_amended_limit_offset_binding "users" (some "7") (some "abc") dbEmpty rfl).2.2.2
     "7" "abc" rfl (by decide) rfl (by decide)⟩

/-- C6: the handler answers 404 exactly when no route pattern matches the
method and path, when a get-by-id on a valid table finds no row, or when an
update or delete on a valid table affects zero rows; no other outcome
produces 404. -/
theorem c6_status_404_characterization (req : Request) (db : Db) :
    (handle req db).1.status = 404 ↔
      (matchedRoute (parseRoute req.path) req.method = false
      ∨ (∃ t i, parseRoute req.path = .tableTwo t i ∧ req.method = "GET" ∧
          isValidTableName t = true ∧ db.first (stmtGet t i) = .ok none)
      ∨ (∃ t i b r, parseRoute req.path = .tableTwo t i ∧ req.method = "PUT" ∧
          isValidTableName t = true ∧ req.body = .ok b ∧
          (jsFalsy b || (jsObjectKeys b).length == 0) = false ∧
          db.run (stmtUpdate t i b) = .ok r ∧ r.meta.changes = 0)
      ∨ (∃ t i r, parseRoute req.path = .tableTwo t i ∧ req.method = "DELETE" ∧
          isValidTableName t = true ∧ db.run (stmtDelete t i) = .ok r ∧
          r.meta.changes = 0)) := by
  by_cases hm : req.method = "OPTIONS"
  · exact iff_of_false (by simp [handle, hm, corsPreflight])
      (by simp [hm, matchedRoute])
  · cases hp : parseRoute req.path
    next =>
      by_cases hg : req.method = "GET"
      · rcases out_listTablesH db with ⟨e, hdb, hout⟩ | ⟨rs, m, hdb, hout⟩ <;>
          exact iff_of_false
            (by simp [handle, route, hp, beq_iff_eq, hm, hg, hout, finalize, jsonResponse])
            (by simp [matchedRoute, hg])
      · exact iff_of_true
          (by simp [handle, route, hp, beq_iff_eq, hm, hg, notFoundResult, finalize,
            jsonResponse])
          (Or.inl (by simp [matchedRoute, beq_eq_false_iff_ne, hm, hg]))
    next t =>
      by_cases hg : req.method = "GET"
      · rcases out_listRecords t req.limitParam req.offsetParam db with
          ⟨hv, hout⟩ | ⟨hv, e, hdb, hout⟩ | ⟨hv, rs, m, hdb, hout⟩ <;>
          exact iff_of_false
            (by simp [handle, route, hp, beq_iff_eq, hm, hg, hout, finalize, jsonResponse,
              invalidTableResult, errEnv])
            (by simp [matchedRoute, hg])
      · by_cases hpost : req.method = "POST"
        · rcases out_createRecord t req.body db with
            ⟨hv, hout⟩ | ⟨hv, e, hbody, hout⟩ | ⟨hv, b, hbody, hcheck, hout⟩ |
            ⟨hv, b, e, hbody, hcheck, hdb, hout⟩ | ⟨hv, b, r, hbody, hcheck, hdb, hout⟩ <;>
            exact iff_of_false
              (by simp [handle, route, hp, beq_iff_eq, hm, hg, hpost, hout, finalize,
                jsonResponse, invalidTableResult, bodyRequiredResult, errEnv])
              (by simp [matchedRoute, hpost])
        · exact iff_of_true
            (by simp [handle, route, hp, beq_iff_eq, hm, hg, hpost, notFoundResult,
              finalize, jsonResponse])
            (Or.inl (by simp [matchedRoute, beq_eq_false_iff_ne, hm, hg, hpost]))
    next t i =>
      by_cases hg : req.method = "GET"
      · rcases out_getRecord t i db with
          ⟨hv, hout⟩ | ⟨hv, e, hdb, hout⟩ | ⟨hv, hdb, hout⟩ | ⟨hv, row, hdb, hout⟩
        · exact iff_of_false
            (by simp [handle, route, hp, beq_iff_eq, hm, hg, hout, finalize, jsonResponse,
              invalidTableResult, errEnv])
            (by simp [matchedRoute, hg, hv])
        · exact iff_of_false
            (by simp [handle, route, hp, beq_iff_eq, hm, hg, hout, finalize, jsonResponse,
              errEnv])
            (by simp [matchedRoute, hg, hdb])
        · exact iff_of_true
            (by simp [handle, route, hp, beq_iff_eq, hm, hg, hout, finalize, jsonResponse,
              errEnv])
            (Or.inr (Or.inl ⟨t, i, rfl, hg, hv, hdb⟩))
        · exact iff_of_false
            (by simp [handle, route, hp, beq_iff_eq, hm, hg, hout, finalize, jsonResponse])
            (by simp [matchedRoute, hg, hdb])
      · by_cases hput : req.method = "PUT"
        · rcases out_updateRecord t i req.body db with
            ⟨hv, hout⟩ | ⟨hv, e, hbody, hout⟩ | ⟨hv, b, hbody, hcheck, hout⟩ |
            ⟨hv, b, e, hbody, hcheck, hdb, hout⟩ |
            ⟨hv, b, r, hbody, hcheck, hdb, hchg, hout⟩ |
            ⟨hv, b, r, hbody, hcheck, hdb, hchg, hout⟩
          · exact iff_of_false
              (by simp [handle, route, hp, beq_iff_eq, hm, hg, hput, hout, finalize,
                jsonResponse, invalidTableResult, errEnv])
              (by simp [matchedRoute, hg, hput, hv])
          · exact iff_of_false
              (by simp [handle, route, hp, beq_iff_eq, hm, hg, hput, hout, finalize,
                jsonResponse, errEnv])
              (by simp [matchedRoute, hg, hput, hbody])
          · refine iff_of_false
              (by simp [handle, route, hp, beq_iff_eq, hm, hg, hput, hout, finalize,
                jsonResponse, bodyRequiredResult, errEnv]) ?_
            simp only [matchedRoute, hg, hput, hbody]
            simp
            intro hv2 hf hk x hrun
            simp [hf, beq_iff_eq, List.length_eq_zero] at hcheck
            exact absurd hcheck hk
          · exact iff_of_false
              (by simp [handle, route, hp, beq_iff_eq, hm, hg, hput, hout, finalize,
                jsonResponse, errEnv])
              (by simp [matchedRoute, hg, hput, hbody, hdb])
          · exact iff_of_true
              (by simp [handle, route, hp, beq_iff_eq, hm, hg, hput, hout, finalize,
                jsonResponse, errEnv])
              (Or.inr (Or.inr (Or.inl ⟨t, i, b, r, rfl, hput, hv, hbody, hcheck, hdb, hchg⟩)))
          · exact iff_of_false
              (by simp [handle, route, hp, beq_iff_eq, hm, hg, hput, hout, finalize,
                jsonResponse])
              (by simp [matchedRoute, hg, hput, hbody, hdb, hchg])
        · by_cases hdel : req.method = "DELETE"
          · rcases out_deleteRecord t i db with
              ⟨hv, hout⟩ | ⟨hv, e, hdb, hout⟩ | ⟨hv, r, hdb, hchg, hout⟩ |
              ⟨hv, r, hdb, hchg, hout⟩
            · exact iff_of_false
                (by simp [handle, route, hp, beq_iff_eq, hm, hg, hput, hdel, hout,
                  finalize, jsonResponse, invalidTableResult, errEnv])
                (by simp [matchedRoute, hg, hput, hdel, hv])
            · exact iff_of_false
                (by simp [handle, route, hp, beq_iff_eq, hm, hg, hput, hdel, hout,
                  finalize, jsonResponse, errEnv])
                (by simp [matchedRoute, hg, hput, hdel, hdb])
            · exact iff_of_true
                (by simp [handle, route, hp, beq_iff_eq, hm, hg, hput, hdel, hout,
                  finalize, jsonResponse, errEnv])
                (Or.inr (Or.inr (Or.inr ⟨t, i, r, rfl, hdel, hv, hdb, hchg⟩)))
            · exact iff_of_false
                (by simp [handle, route, hp, beq_iff_eq, hm, hg, hput, hdel, hout,
                  finalize, jsonResponse])
                (by simp [matchedRoute, hg, hput, hdel, hdb, hchg])
          · exact iff_of_true
              (by simp [handle, route, hp, beq_iff_eq, hm, hg, hput, hdel, notFoundResult,
                finalize, jsonResponse])
              (Or.inl (by simp [matchedRoute, beq_eq_false_iff_ne, hm, hg, hput, hdel]))
    next =>
      by_cases hpost : req.method = "POST"
      · rcases out_rawQuery req.body db with
          ⟨e, hbody, hout⟩ | ⟨b, e, hbody, hq, hout⟩ | ⟨b, qv, hbody, hq, hf, hout⟩ |
          ⟨st, e, hout⟩ | ⟨st, rs, m, hout⟩ <;>
          exact iff_of_false
            (by simp [handle, route, hp, beq_iff_eq, hm, hpost, hout, finalize,
              jsonResponse, errEnv])
            (by simp [matchedRoute, hpost])
      · exact iff_of_true
          (by simp [handle, route, hp, beq_iff_eq, hm, hpost, notFoundResult, finalize,
            jsonResponse])
          (Or.inl (by simp [matchedRoute, beq_eq_false_iff_ne, hm, hpost]))
    next =>
      by_cases hg : req.method = "GET"
      · exact iff_of_false
          (by simp [handle, route, hp, beq_iff_eq, hm, hg, finalize])
          (by simp [matchedRoute, hg])
      · exact iff_of_true
          (by simp [handle, route, hp, beq_iff_eq, hm, hg, notFoundResult, finalize,
            jsonResponse])
          (Or.inl (by simp [matchedRoute, beq_eq_false_iff_ne, hm, hg]))
    next =>
      exact iff_of_true
        (by simp [handle, route, hp, beq_iff_eq, hm, notFoundResult, finalize,
          jsonResponse])
        (Or.inl (by simp [matchedRoute, beq_eq_false_iff_ne, hm]))

/-- C7 counterexample: when the database run result carries a false success
flag without throwing, the create route answers with an envelope whose
success is false while data is present and error is absent, violating the
envelope invariant. -/
theorem c7_counterexample_false_success_with_data :
    (handle ⟨none, "POST", "/tables/users", none, none,
        .ok (.obj [("name", .str "A")])⟩ dbRunNoSuccess).1.body
      = .json ⟨false, some (.obj [("lastRowId", .num 7), ("changes", .num 1)]), none, none⟩ ∧
    ¬ envOk ⟨false, some (.obj [("lastRowId", .num 7), ("changes", .num 1)]), none, none⟩ :=
  ⟨rfl, fun h => (h.1 rfl).1 rfl⟩

/-- C7 amended: provided every run result returned by the database carries
a true success flag (the behavior D1 documents, since failures throw),
every JSON envelope the handler produces satisfies the invariant: a false
success comes with an error message and no data, and a true success comes
with no error. -/
theorem c7_envelope_invariant (req : Request) (db : Db)
    (hdb : ∀ s r, db.run s = .ok r → r.success = true) :
    ∀ env, (handle req db).1.body = .json env → envOk env := by
  intro env henv
  by_cases hm : req.method = "OPTIONS"
  · simp [handle, hm, corsPreflight] at henv
  · cases hp : parseRoute req.path
    next =>
      by_cases hg : req.method = "GET"
      · rcases out_listTablesH db with ⟨e, hdb2, hout⟩ | ⟨rs, m, hdb2, hout⟩ <;>
          simp [handle, route, hp, beq_iff_eq, hm, hg, hout, finalize, jsonResponse] at henv <;>
          simp [← henv, envOk, errEnv]
      · simp [handle, route, hp, beq_iff_eq, hm, hg, notFoundResult, finalize,
          jsonResponse] at henv
        simp [← henv, envOk, errEnv]
    next t =>
      by_cases hg : req.method = "GET"
      · rcases out_listRecords t req.limitParam req.offsetParam db with
          ⟨hv, hout⟩ | ⟨hv, e, hdb2, hout⟩ | ⟨hv, rs, m, hdb2, hout⟩ <;>
          simp [handle, route, hp, beq_iff_eq, hm, hg, hout, finalize, jsonResponse,
            invalidTableResult, errEnv] at henv <;>
          simp [← henv, envOk, errEnv]
      · by_cases hpost : req.method = "POST"
        · rcases out_createRecord t req.body db with
            ⟨hv, hout⟩ | ⟨hv, e, hbody, hout⟩ | ⟨hv, b, hbody, hcheck, hout⟩ |
            ⟨hv, b, e, hbody, hcheck, hdb2, hout⟩ | ⟨hv, b, r, hbody, hcheck, hdb2, hout⟩
          · simp [handle, route, hp, beq_iff_eq, hm, hg, hpost, hout, finalize,
              jsonResponse, invalidTableResult, errEnv] at henv
            simp [← henv, envOk, errEnv]
          · simp [handle, route, hp, beq_iff_eq, hm, hg, hpost, hout, finalize,
              jsonResponse, errEnv] at henv
            simp [← henv, envOk, errEnv]
          · simp [handle, route, hp, beq_iff_eq, hm, hg, hpost, hout, finalize,
              jsonResponse, bodyRequiredResult, errEnv] at henv
            simp [← henv, envOk, errEnv]
          · simp [handle, route, hp, beq_iff_eq, hm, hg, hpost, hout, finalize,
              jsonResponse, errEnv] at henv
            simp [← henv, envOk, errEnv]
          · simp [handle, route, hp, beq_iff_eq, hm, hg, hpost, hout, finalize,
              jsonResponse] at henv
            simp [← henv, envOk, hdb _ r hdb2]
        · simp [handle, route, hp, beq_iff_eq, hm, hg, hpost, notFoundResult, finalize,
            jsonResponse] at henv
          simp [← henv, envOk, errEnv]
    next t i =>
      by_cases hg : req.method = "GET"
      · rcases out_getRecord t i db with
          ⟨hv, hout⟩ | ⟨hv, e, hdb2, hout⟩ | ⟨hv, hdb2, hout⟩ | ⟨hv, row, hdb2, hout⟩ <;>
          simp [handle, route, hp, beq_iff_eq, hm, hg, hout, finalize, jsonResponse,
            invalidTableResult, errEnv] at henv <;>
          simp [← henv, envOk, errEnv]
      · by_cases hput : req.method = "PUT"
        · rcases out_updateRecord t i req.body db with
            ⟨hv, hout⟩ | ⟨hv, e, hbody, hout⟩ | ⟨hv, b, hbody, hcheck, hout⟩ |
            ⟨hv, b, e, hbody, hcheck, hdb2, hout⟩ |
            ⟨hv, b, r, hbody, hcheck, hdb2, hchg, hout⟩ |
            ⟨hv, b, r, hbody, hcheck, hdb2, hchg, hout⟩
          · simp [handle, route, hp, beq_iff_eq, hm, hg, hput, hout, finalize,
              jsonResponse, invalidTableResult, errEnv] at henv
            simp [← henv, envOk, errEnv]
          · simp [handle, route, hp, beq_iff_eq, hm, hg, hput, hout, finalize,
              jsonResponse, errEnv] at henv
            simp [← henv, envOk, errEnv]
          · simp [handle, route, hp, beq_iff_eq, hm, hg, hput, hout, finalize,
              jsonResponse, bodyRequiredResult, errEnv] at henv
            simp [← henv, envOk, errEnv]
          · simp [handle, route, hp, beq_iff_eq, hm, hg, hput, hout, finalize,
              jsonResponse, errEnv] at henv
            simp [← henv, envOk, errEnv]
          · simp [handle, route, hp, beq_iff_eq, hm, hg, hput, hout, finalize,
              jsonResponse, errEnv] at henv
            simp [← henv, envOk, errEnv]
          · simp [handle, route, hp, beq_iff_eq, hm, hg, hput, hout, finalize,
              jsonResponse] at henv
            simp [← henv, envOk, hdb _ r hdb2]
        · by_cases hdel : req.method = "DELETE"
          · rcases out_deleteRecord t i db with
              ⟨hv, hout⟩ | ⟨hv, e, hdb2, hout⟩ | ⟨hv, r, hdb2, hchg, hout⟩ |
              ⟨hv, r, hdb2, hchg, hout⟩
            · simp [handle, route, hp, beq_iff_eq, hm, hg, hput, hdel, hout, finalize,
                jsonResponse, invalidTableResult, errEnv] at henv
              simp [← henv, envOk, errEnv]
            · simp [handle, route, hp, beq_iff_eq, hm, hg, hput, hdel, hout, finalize,
                jsonResponse, errEnv] at henv
              simp [← henv, envOk, errEnv]
            · simp [handle, route, hp, beq_iff_eq, hm, hg, hput, hdel, hout, finalize,
                jsonResponse, errEnv] at henv
              simp [← henv, envOk, errEnv]
            · simp [handle, route, hp, beq_iff_eq, hm, hg, hput, hdel, hout, finalize,
                jsonResponse] at henv
              simp [← henv, envOk, hdb _ r hdb2]
          · simp [handle, route, hp, beq_iff_eq, hm, hg, hput, hdel, notFoundResult,
              finalize, jsonResponse] at henv
            simp [← henv, envOk, errEnv]
    next =>
      by_cases hpost : req.method = "POST"
      · rcases out_rawQuery req.body db with
          ⟨e, hbody, hout⟩ | ⟨b, e, hbody, hq, hout⟩ | ⟨b, qv, hbody, hq, hf, hout⟩ |
          ⟨st, e, hout⟩ | ⟨st, rs, m, hout⟩ <;>
          simp [handle, route, hp, beq_iff_eq, hm, hpost, hout, finalize, jsonResponse,
            errEnv] at henv <;>
          simp [← henv, envOk, errEnv]
      · simp [handle, route, hp, beq_iff_eq, hm, hpost, notFoundResult, finalize,
          jsonResponse] at henv
        simp [← henv, envOk, errEnv]
    next =>
      by_cases hg : req.method = "GET"
      · simp [handle, route, hp, beq_iff_eq, hm, hg, finalize] at henv
      · simp [handle, route, hp, beq_iff_eq, hm, hg, notFoundResult, finalize,
          jsonResponse] at henv
        simp [← henv, envOk, errEnv]
    next =>
      simp [handle, route, hp, beq_iff_eq, hm, notFoundResult, finalize,
        jsonResponse] at henv
      simp [← henv, envOk, errEnv]

/-- C7 witness: the invariant theorem applied to the route-not-found
envelope of a request against the empty database, whose run results always
report success. -/
theorem c7_envelope_invariant_witness :
    envOk (errEnv "Route not found") :=
  c7_envelope_invariant ⟨none, "GET", "/nope", none, none, .ok .null⟩ dbEmpty
    (fun s r h => by
      simp only [dbEmpty] at h
      cases h
      rfl)
    (errEnv "Route not found") rfl

/-- C8 counterexample: a database error whose message is empty is not
surfaced verbatim; the catch-all substitutes the fallback text, so the
message is not always carried verbatim. -/
theorem c8_counterexample_empty_message_replaced :
    dbThrowEmpty.all stmtListTables = .error "" ∧
    (handle ⟨none, "GET", "/tables", none, none, .ok .null⟩ dbThrowEmpty).1
      = jsonResponse (errEnv "Internal server error") 500 ∧
    "Internal server error" ≠ "" :=
  ⟨rfl, rfl, by decide⟩

/-- C8 amended: any error thrown during routing, in particular any database
execution error, is caught at the handler boundary and mapped to 500 with
success false and the thrown message surfaced when it is non-empty (an
empty or absent message is replaced by the fallback text), while every 400
validation response is produced before any database call. -/
theorem c8_errors_caught_validation_first (req : Request) (db : Db) (msg : String) :
    ((route req db).1 = .error msg →
        (handle req db).1
          = jsonResponse (errEnv (if msg == "" then "Internal server error" else msg)) 500 ∧
        (handle req db).2 = (route req db).2) ∧
    ((handle req db).1.status = 400 → (handle req db).2 = []) := by
  constructor
  · intro h
    by_cases hm : req.method = "OPTIONS"
    · rw [route_options req db hm] at h
      simp [notFoundResult] at h
    · rcases hr : route req db with ⟨res, log⟩
      rw [hr] at h
      simp only at h
      subst h
      simp [handle, beq_iff_eq, hm, hr, finalize]
  · by_cases hm : req.method = "OPTIONS"
    · intro _
      simp [handle, hm]
    · cases hp : parseRoute req.path
      next =>
        by_cases hg : req.method = "GET"
        · rcases out_listTablesH db with ⟨e, hdb, hout⟩ | ⟨rs, m, hdb, hout⟩ <;>
            simp [handle, route, hp, beq_iff_eq, hm, hg, hout, finalize, jsonResponse]
        · simp [handle, route, hp, beq_iff_eq, hm, hg, notFoundResult, finalize, jsonResponse]
      next t =>
        by_cases hg : req.method = "GET"
        · rcases out_listRecords t req.limitParam req.offsetParam db with
            ⟨hv, hout⟩ | ⟨hv, e, hdb, hout⟩ | ⟨hv, rs, m, hdb, hout⟩ <;>
            simp [handle, route, hp, beq_iff_eq, hm, hg, hout, finalize, jsonResponse,
              invalidTableResult, errEnv]
        · by_cases hpost : req.method = "POST"
          · rcases out_createRecord t req.body db with
              ⟨hv, hout⟩ | ⟨hv, e, hbody, hout⟩ | ⟨hv, b, hbody, hcheck, hout⟩ |
              ⟨hv, b, e, hbody, hcheck, hdb, hout⟩ | ⟨hv, b, r, hbody, hcheck, hdb, hout⟩ <;>
              simp [handle, route, hp, beq_iff_eq, hm, hg, hpost, hout, finalize,
                jsonResponse, invalidTableResult, bodyRequiredResult, errEnv]
          · simp [handle, route, hp, beq_iff_eq, hm, hg, hpost, notFoundResult,
              finalize, jsonResponse]
      next t i =>
        by_cases hg : req.method = "GET"
        · rcases out_getRecord t i db with
            ⟨hv, hout⟩ | ⟨hv, e, hdb, hout⟩ | ⟨hv, hdb, hout⟩ | ⟨hv, row, hdb, hout⟩ <;>
            simp [handle, route, hp, beq_iff_eq, hm, hg, hout, finalize, jsonResponse,
              invalidTableResult, errEnv]
        · by_cases hput : req.method = "PUT"
          · rcases out_updateRecord t i req.body db with
              ⟨hv, hout⟩ | ⟨hv, e, hbody, hout⟩ | ⟨hv, b, hbody, hcheck, hout⟩ |
              ⟨hv, b, e, hbody, hcheck, hdb, hout⟩ |
              ⟨hv, b, r, hbody, hcheck, hdb, hchg, hout⟩ |
              ⟨hv, b, r, hbody, hcheck, hdb, hchg, hout⟩ <;>
              simp [handle, route, hp, beq_iff_eq, hm, hg, hput, hout, finalize,
                jsonResponse, invalidTableResult, bodyRequiredResult, errEnv]
          · by_cases hdel : req.method = "DELETE"
            · rcases out_deleteRecord t i db with
                ⟨hv, hout⟩ | ⟨hv, e, hdb, hout⟩ | ⟨hv, r, hdb, hchg, hout⟩ |
                ⟨hv, r, hdb, hchg, hout⟩ <;>
                simp [handle, route, hp, beq_iff_eq, hm, hg, hput, hdel, hout, finalize,
                  jsonResponse, invalidTableResult, errEnv]
            · simp [handle, route, hp, beq_iff_eq, hm, hg, hput, hdel, notFoundResult,
                finalize, jsonResponse]
      next =>
        by_cases hpost : req.method = "POST"
        · rcases out_rawQuery req.body db with
            ⟨e, hbody, hout⟩ | ⟨b, e, hbody, hq, hout⟩ | ⟨b, qv, hbody, hq, hf, hout⟩ |
            ⟨st, e, hout⟩ | ⟨st, rs, m, hout⟩ <;>
            simp [handle, route, hp, beq_iff_eq, hm, hpost, hout, finalize, jsonResponse,
              errEnv]
        · simp [handle, route, hp, beq_iff_eq, hm, hpost, notFoundResult, finalize,
            jsonResponse]
      next =>
        by_cases hg : req.method = "GET"
        · simp [handle, route, hp, beq_iff_eq, hm, hg, finalize]
        · simp [handle, route, hp, beq_iff_eq, hm, hg, notFoundResult, finalize,
            jsonResponse]
      next =>
        simp [handle, route, hp, beq_iff_eq, hm, notFoundResult, finalize, jsonResponse]

/-- C8 witness: a database error message is surfaced at 500 on the
list-tables route, and a concrete 400 response comes with an empty
statement log. -/
theorem c8_errors_caught_validation_first_witness :
    (handle ⟨none, "GET", "/tables", none, none, .ok .null⟩ dbThrowMsg).1
      = jsonResponse (errEnv "no such table: users") 500 ∧
    (handle ⟨none, "POST", "/tables/users", none, none, .ok (.obj [])⟩ dbEmpty).2 = [] :=
  ⟨((c8_errors_caught_validation_first ⟨none, "GET", "/tables", none, none, .ok .null⟩
      dbThrowMsg "no such table: users").1 rfl).1,
   (c8_errors_caught_validation_first ⟨none, "POST", "/tables/users", none, none,
      .ok (.obj [])⟩ dbEmpty "x").2 rfl⟩

/-- C9 counterexample: a request body that is a non-empty JSON array is not
rejected; the create route builds an insert statement whose column name is
the array index and executes it, answering with status 201. -/
theorem c9_counterexample_array_body_builds_sql :
    jsFalsy (Json.arr [Json.num 5]) = false ∧
    (createRecord "users" (.ok (.arr [.num 5])) dbEmpty).2.map Stmt.sql
      = ["INSERT INTO users (0) VALUES (?)"] ∧
    (createRecord "users" (.ok (.arr [.num 5])) dbEmpty).1
      = .ok (jsonResponse
          ⟨true, some (.obj [("lastRowId", .num 0), ("changes", .num 0)]), none, none⟩ 201) :=
  ⟨rfl, rfl, rfl⟩

/-- C9 amended: for valid JSON bodies that are not objects, number, boolean,
null, empty-string and empty-array bodies are rejected with the
body-required response before any database call, while non-empty array and
non-empty string bodies are not rejected: the create and update routes
build and execute statements whose column names are the element indices. -/
theorem c9_amended_non_object_bodies (t i : String) (db : Db)
    (h : isValidTableName t = true) :
    (∀ n : Int, createRecord t (.ok (.num n)) db = bodyRequiredResult ∧
        updateRecord t i (.ok (.num n)) db = bodyRequiredResult) ∧
    (∀ bb : Bool, createRecord t (.ok (.bool bb)) db = bodyRequiredResult ∧
        updateRecord t i (.ok (.bool bb)) db = bodyRequiredResult) ∧
    (createRecord t (.ok .null) db = bodyRequiredResult ∧
        updateRecord t i (.ok .null) db = bodyRequiredResult) ∧
    (createRecord t (.ok (.str "")) db = bodyRequiredResult ∧
        updateRecord t i (.ok (.str "")) db = bodyRequiredResult) ∧
    (createRecord t (.ok (.arr [])) db = bodyRequiredResult ∧
        updateRecord t i (.ok (.arr [])) db = bodyRequiredResult) ∧
    (∀ x xs, (createRecord t (.ok (.arr (x :: xs))) db).2 = [stmtInsert t (.arr (x :: xs))] ∧
        (updateRecord t i (.ok (.arr (x :: xs))) db).2 = [stmtUpdate t i (.arr (x :: xs))]) ∧
    (∀ s : String, s.length ≠ 0 →
        (createRecord t (.ok (.str s)) db).2 = [stmtInsert t (.str s)] ∧
        (updateRecord t i (.ok (.str s)) db).2 = [stmtUpdate t i (.str s)]) := by
  refine ⟨?_, ?_, ?_, ?_, ?_, ?_, ?_⟩
  · intro n; constructor <;> simp [createRecord, updateRecord, h, jsFalsy, jsObjectKeys]
  · intro bb; constructor <;> simp [createRecord, updateRecord, h, jsFalsy, jsObjectKeys]
  · constructor <;> simp [createRecord, updateRecord, h, jsFalsy, jsObjectKeys]
  · constructor <;> simp [createRecord, updateRecord, h, jsFalsy, jsObjectKeys]
  · constructor <;> simp [createRecord, updateRecord, h, jsFalsy, jsObjectKeys]
  · intro x xs
    constructor
    · rcases hdb : db.run (stmtInsert t (.arr (x :: xs))) with e | r <;>
        simp [createRecord, h, jsFalsy, jsObjectKeys, hdb]
    · rcases hdb : db.run (stmtUpdate t i (.arr (x :: xs))) with e | r
      · simp [updateRecord, h, jsFalsy, jsObjectKeys, hdb]
      · by_cases hc : (r.meta.changes == 0) = true <;>
          simp [updateRecord, h, jsFalsy, jsObjectKeys, hdb, hc]
  · intro s hs
    have hne : ¬ s = "" := fun h0 => hs (by simp [h0])
    constructor
    · rcases hdb : db.run (stmtInsert t (.str s)) with e | r <;>
        simp [createRecord, h, jsFalsy, jsObjectKeys, hdb, hne, hs]
    · rcases hdb : db.run (stmtUpdate t i (.str s)) with e | r
      · simp [updateRecord, h, jsFalsy, jsObjectKeys, hdb, hne, hs]
      · by_cases hc : (r.meta.changes == 0) = true <;>
          simp [updateRecord, h, jsFalsy, jsObjectKeys, hdb, hc, hne, hs]

/-- C9 witness: the amended theorem applied to a null body, to a
one-element array body, and to a non-empty string body on a concrete
table. -/
theorem c9_amended_witness :
    (createRecord "users" (.ok .null) dbEmpty = bodyRequiredResult ∧
      updateRecord "users" "1" (.ok .null) dbEmpty = bodyRequiredResult) ∧
    (createRecord "users" (.ok (.arr [.num 5])) dbEmpty).2
      = [stmtInsert "users" (.arr [.num 5])] ∧
    (updateRecord "users" "1" (.ok (.str "ab")) dbEmpty).2
      = [stmtUpdate "users" "1" (.str "ab")] :=
  ⟨(c9_amended_non_object_bodies "users" "1" dbEmpty rfl).2.2.1,
   ((c9_amended_non_object_bodies "users" "1" dbEmpty rfl).2.2.2.2.2.1
      (Json.num 5) []).1,
   ((c9_amended_non_object_bodies "users" "1" dbEmpty rfl).2.2.2.2.2.2
      "ab" (by decide)).2⟩

/-- C10: a table name failing the identifier grammar makes the create and
update routes answer with the invalid-table response and no database call,
whatever the request body is, including a body whose JSON parsing failed;
in particular the outcome is identical for any two bodies. -/
theorem c10_table_check_precedes_body (t i : String) (db : Db)
    (h : isValidTableName t = false) :
    (∀ body, createRecord t body db = invalidTableResult) ∧
    (∀ body, updateRecord t i body db = invalidTableResult) ∧
    (∀ body₁ body₂, createRecord t body₁ db = createRecord t body₂ db ∧
        updateRecord t i body₁ db = updateRecord t i body₂ db) := by
  refine ⟨fun body => ?_, fun body => ?_, fun body₁ body₂ => ⟨?_, ?_⟩⟩ <;>
    simp [createRecord, updateRecord, h]

/-- C10 witness: the theorem applied to a digit-leading table name and a
parse-failed body. -/
theorem c10_witness :
    createRecord "9bad" (Except.error "Unexpected end of JSON input") dbEmpty
      = invalidTableResult :=
  (c10_table_check_precedes_body "9bad" "1" dbEmpty rfl).1
    (Except.error "Unexpected end of JSON input")

/-- C6 witness: the characterization applied to an unmatched method on the
tables path, whose answer is the route-not-found 404. -/
theorem c6_status_404_characterization_witness :
    (handle ⟨none, "PATCH", "/tables", none, none, .ok .null⟩ dbEmpty).1.status = 404 :=
  (c6_status_404_characterization ⟨none, "PATCH", "/tables", none, none, .ok .null⟩
      dbEmpty).mpr (Or.inl rfl)

end D1Worker
